import Mathlib

/-!
Verification development for the Super Productivity → CalDAV sync engine
(`src/main.py`). The definitions below are a shallow embedding of the
reconciliation core: payload resolution (`fetch_task_data`), due-date
normalization, the create/update/skip decision and event materialization
(`process_tasks`).

Modelling conventions:
* Machine timestamps are epoch milliseconds, embedded as `Int`. The code
  calls `datetime.fromtimestamp(ms / 1000.0, tz=timezone.utc)` and later
  compares wall-clock values after `replace(tzinfo=None)`; we therefore
  represent a timed start by its UTC wall-clock value in milliseconds.
  The wire format `%Y%m%dT%H%M%SZ` (and `icalendar.vDatetime` on update)
  carries whole seconds only, which the model reflects by flooring stored
  values to a multiple of 1000 ms.
* Python truthiness on the task fields (`if due_timestamp:`, `if due_day:`,
  `if task.get('parentId'):`, `if repeat_cfg:`) is modelled explicitly:
  `0`, the empty string, the empty dict/list, `False` and `null` are falsy.
* JSON values are embedded as the inductive `Json`; numbers are restricted
  to integers (every numeric field the engine reads is an epoch-millisecond
  integer) and string escapes to the single-character escapes.
* The remote calendar is a store mapping UID strings to stored events.
  Serialization to and from iCalendar text is modelled as the identity on
  the typed fields, except for the second-precision truncation above which
  the emitted formats force.
-/

namespace SpSync

/-- JSON values, as produced by `json.loads`. Numbers are modelled as
integers (a model restriction: the engine only reads integer epoch values). -/
inductive Json where
  | null
  | bool (b : Bool)
  | num (n : Int)
  | str (s : String)
  | arr (xs : List Json)
  | obj (kvs : List (String × Json))

/-- Python truthiness of a JSON value (`if x:`): `None`, `False`, `0`,
the empty string, the empty list and the empty dict are falsy. -/
def Json.truthy : Json → Bool
  | Json.null => false
  | Json.bool b => b
  | Json.num n => n != 0
  | Json.str s => s != ""
  | Json.arr xs => !xs.isEmpty
  | Json.obj kvs => !kvs.isEmpty

/-- Truthiness of an optional string field read with `task.get(...)`:
absent (`None`) and the empty string are falsy. -/
def optStrTruthy : Option String → Bool
  | none => false
  | some s => s != ""

/-- Truthiness of an optional integer field read with `task.get(...)`:
absent (`None`) and `0` are falsy. -/
def optIntTruthy : Option Int → Bool
  | none => false
  | some n => n != 0

/-- Proleptic-Gregorian leap-year rule used by `datetime.date`. -/
def isLeap (y : Nat) : Bool :=
  (y % 4 == 0 && y % 100 != 0) || y % 400 == 0

/-- Number of days in a month, as validated by `datetime.strptime`. -/
def daysInMonth (y m : Nat) : Nat :=
  if m == 2 then (if isLeap y then 29 else 28)
  else if m == 4 || m == 6 || m == 9 || m == 11 then 30
  else 31

/-- A calendar date (`datetime.date`). -/
structure Date where
  year : Nat
  month : Nat
  day : Nat
deriving DecidableEq, Repr

/-- The date one day later (`dt_start + timedelta(days=1)`). -/
def Date.next (d : Date) : Date :=
  if d.day < daysInMonth d.year d.month then ⟨d.year, d.month, d.day + 1⟩
  else if d.month < 12 then ⟨d.year, d.month + 1, 1⟩
  else ⟨d.year + 1, 1, 1⟩

/-- Split a character list into the groups separated by the dash character
(the `-` separators of a `%Y-%m-%d` date string). -/
def splitDash : List Char → List (List Char)
  | [] => [[]]
  | '-' :: rest => [] :: splitDash rest
  | c :: rest =>
    match splitDash rest with
    | [] => [[c]]
    | g :: gs => (c :: g) :: gs

/-- Value of a decimal digit character, or `none`. -/
def digitVal (c : Char) : Option Nat :=
  if '0' ≤ c ∧ c ≤ '9' then some (c.toNat - '0'.toNat) else none

/-- Accumulate the decimal value of a digit list; fails on a non-digit. -/
def parseNatAux : List Char → Nat → Option Nat
  | [], acc => some acc
  | c :: rest, acc =>
    match digitVal c with
    | some v => parseNatAux rest (acc * 10 + v)
    | none => none

/-- Decimal value of a non-empty all-digit character list. -/
def parseNatDigits : List Char → Option Nat
  | [] => none
  | cs => parseNatAux cs 0

/-- Model of `datetime.strptime(due_day, '%Y-%m-%d').date()`: three
dash-separated digit groups (at most 4/2/2 digits), validated as a
calendar date in years 1–9999; any failure raises `ValueError`,
modelled as `none`. -/
def parseDueDay (s : String) : Option Date :=
  match splitDash s.data with
  | [ys, ms, ds] =>
    if ys.length ≤ 4 ∧ ms.length ≤ 2 ∧ ds.length ≤ 2 then
      match parseNatDigits ys, parseNatDigits ms, parseNatDigits ds with
      | some y, some m, some d =>
        if 1 ≤ y ∧ y ≤ 9999 ∧ 1 ≤ m ∧ m ≤ 12 ∧ 1 ≤ d ∧ d ≤ daysInMonth y m then
          some ⟨y, m, d⟩
        else none
      | _, _, _ => none
    else none
  | _ => none

/-- Normalized due value of a task: a UTC instant (epoch milliseconds;
the code's `datetime.fromtimestamp(due_timestamp / 1000.0, tz=timezone.utc)`)
or an all-day calendar date. -/
inductive Due where
  | instant (ms : Int)
  | allday (d : Date)
deriving DecidableEq, Repr

/-- A task record from the resolved payload, restricted to the fields
`process_tasks` reads, each at its documented type. `none` models an
absent key (`task.get(...)` returning `None`). -/
structure Task where
  parentId : Option String := none
  dueDay : Option String := none
  dueWithTime : Option Int := none
  title : Option String := none
  repeatCfg : Option Json := none
  reminderId : Option String := none

/-- Due normalization, lines 191–219 of `src/main.py`: subtasks
(truthy `parentId`) are excluded; a truthy `dueWithTime` yields an
instant; otherwise a truthy `dueDay` is parsed (parse failure excludes
the task); otherwise the task is excluded. -/
def normalize (t : Task) : Option Due :=
  if optStrTruthy t.parentId then none
  else if optIntTruthy t.dueWithTime then
    some (Due.instant (t.dueWithTime.getD 0))
  else if optStrTruthy t.dueDay then
    match parseDueDay (t.dueDay.getD "") with
    | some d => some (Due.allday d)
    | none => none
  else none

/-- The summary written to the event: `task.get('title', 'Untitled Task')`. -/
def taskTitle (t : Task) : String := t.title.getD "Untitled Task"

/-- Deterministic event identifier: `f"super-productivity-{task_id}"`. -/
def eventUid (tid : String) : String := "super-productivity-" ++ tid

/-- Is the needle a leading segment of the haystack? -/
def leadSegEq : List Char → List Char → Bool
  | [], _ => true
  | _ :: _, [] => false
  | a :: as, b :: bs => a == b && leadSegEq as bs

/-- One `str.replace(pat, repl)` pass: non-overlapping, left to right,
replacements not rescanned (fuel bounds the scan length). -/
def replaceAllAux : Nat → List Char → List Char → List Char → List Char
  | 0, _, _, s => s
  | Nat.succ f, pat, repl, s =>
    match s with
    | [] => []
    | c :: rest =>
      if leadSegEq pat (c :: rest) && !pat.isEmpty then
        repl ++ replaceAllAux f pat repl ((c :: rest).drop pat.length)
      else c :: replaceAllAux f pat repl rest

/-- Python's `str.replace(pat, repl)` for a non-empty pattern. -/
def replaceAll (pat repl s : List Char) : List Char :=
  replaceAllAux s.length pat repl s

/-- Model of `icalendar`'s `escape_char`, applied when a modified
component is re-serialized by `save()` on the update path: the ordered
replacement chain backslash → double backslash, `;` → backslash-`;`,
`,` → backslash-`,`, CRLF → backslash-`n`, LF → backslash-`n`. -/
def icalEscape (s : String) : String :=
  String.mk
    (replaceAll ['\n'] ['\\', 'n']
      (replaceAll ['\r', '\n'] ['\\', 'n']
        (replaceAll [','] ['\\', ',']
          (replaceAll [';'] ['\\', ';']
            (replaceAll ['\\'] ['\\', '\\'] s.data)))))

/-- Model of `icalendar`'s `unescape_char`, applied by `vText.from_ical`
when the stored SUMMARY text is read back through
`str(vevent.get('summary'))`: the ordered replacement chain
backslash-`N` → backslash-`n`, CRLF → LF, backslash-`n` → LF,
backslash-`,` → `,`, backslash-`;` → `;`, double backslash → backslash.
The chain is sequential and not context aware, so it is not a two-sided
inverse of `icalEscape`. -/
def icalUnescape (s : String) : String :=
  String.mk
    (replaceAll ['\\', '\\'] ['\\']
      (replaceAll ['\\', ';'] [';']
        (replaceAll ['\\', ','] [',']
          (replaceAll ['\\', 'n'] ['\n']
            (replaceAll ['\r', '\n'] ['\n']
              (replaceAll ['\\', 'N'] ['\\', 'n'] s.data))))))

/-- Start value of a stored calendar event after `replace(tzinfo=None)`:
either a wall-clock datetime (milliseconds) or a plain date. -/
inductive StoredStart where
  | instant (ms : Int)
  | allday (d : Date)
deriving DecidableEq, Repr

/-- A stored VEVENT, restricted to the fields the engine reads or writes;
`others` carries every remaining property untouched by the code. -/
structure StoredEvent where
  summary : String
  dtstart : Option StoredStart
  dtend : Option StoredStart
  duration : Option Int
  rrule : String
  others : List (String × String)
deriving DecidableEq, Repr

/-- The remote calendar, addressed by UID (`calendar.event_by_uid`). -/
def CalStore : Type := String → Option StoredEvent

/-- The empty calendar: every lookup raises `NotFoundError`. -/
def emptyStore : CalStore := fun _ => none

/-- Write an event at a UID (the PUT to `<calendar>/<uid>.ics`, or
`existing_event.save()`). -/
def storeSet (s : CalStore) (k : String) (v : StoredEvent) : CalStore :=
  fun u => if u = k then some v else s u

/-- Per-task reconciliation outcome. -/
inductive Decision where
  | create
  | update
  | skip
deriving DecidableEq, Repr

/-- Floor an epoch-millisecond value to a whole second: the wire formats
`%Y%m%dT%H%M%SZ` and `icalendar.vDatetime` carry no sub-second part. -/
def truncMs (ms : Int) : Int := ms - ms % 1000

/-- The change test of lines 263–281: both datetimes compare naive values,
both dates compare dates, a type mismatch (including a missing DTSTART)
always forces an update, and so does a summary difference. In Python a
`datetime` is an instance of `date`, so the mixed date/datetime pair falls
into the `isinstance(..., date)` branch where `==` across the two types is
always false — hence every mixed pair reports a difference. -/
def needsUpdate (cur : Option StoredStart) (curSummary : String)
    (due : Due) (title : String) : Bool :=
  (match cur, due with
   | some (StoredStart.instant a), Due.instant b => a != b
   | some (StoredStart.allday a), Due.allday b => a != b
   | _, _ => true)
  || title != curSummary

/-- The create/update/skip decision of lines 228–283: no existing event
means create; otherwise update exactly when `needsUpdate` holds. -/
def decideTask (existing : Option StoredEvent) (due : Due) (title : String) :
    Decision :=
  match existing with
  | none => Decision.create
  | some ev =>
    if needsUpdate ev.dtstart ev.summary due title then Decision.update
    else Decision.skip

/-- Recurrence whitelist, `['DAILY', 'WEEKLY', 'MONTHLY', 'YEARLY']`. -/
def freqWhitelist : List String := ["DAILY", "WEEKLY", "MONTHLY", "YEARLY"]

/-- Python dict lookup `kvs.get(key)` on a JSON object. -/
def jlookup (kvs : List (String × Json)) (key : String) : Option Json :=
  (kvs.find? (fun p => p.1 == key)).map Prod.snd

/-- ASCII model of Python's `str.upper()` (every value the whitelist can
accept is ASCII). -/
def pyUpper (s : String) : String := String.mk (s.data.map Char.toUpper)

/-- The frequency candidate read from an object-form `repeatCfg`:
`repeat_cfg.get('repeatEvery', repeat_cfg.get('frequency', 'DAILY'))`. -/
def objFreq (kvs : List (String × Json)) : Json :=
  match jlookup kvs "repeatEvery" with
  | some v => v
  | none =>
    match jlookup kvs "frequency" with
    | some v => v
    | none => Json.str "DAILY"

/-- The RRULE line of lines 326–347: a falsy `repeatCfg` yields nothing;
a string is uppercased and mapped through the whitelist `freq_map`; a
dict reads `repeatEvery`, falling back to `frequency`, falling back to
the literal default `'DAILY'`, and accepts a string value whose
uppercase form is whitelisted; anything else yields the empty line. -/
def rruleLine (cfg : Option Json) : String :=
  match cfg with
  | none => ""
  | some j =>
    if j.truthy then
      match j with
      | Json.str s =>
        if freqWhitelist.contains (pyUpper s) then
          "\nRRULE:FREQ=" ++ pyUpper s
        else ""
      | Json.obj kvs =>
        match objFreq kvs with
        | Json.str s =>
          if freqWhitelist.contains (pyUpper s) then
            "\nRRULE:FREQ=" ++ pyUpper s
          else ""
        | _ => ""
      | _ => ""
    else ""

/-- Zero-pad a number to two digits (`%m`, `%d`, via `%Y%m%d`). -/
def pad2 (n : Nat) : String :=
  if n < 10 then "0" ++ toString n else toString n

/-- Zero-pad a year to four digits (`%Y`). -/
def pad4 (n : Nat) : String :=
  if n < 10 then "000" ++ toString n
  else if n < 100 then "00" ++ toString n
  else if n < 1000 then "0" ++ toString n
  else toString n

/-- `dt_start.strftime('%Y%m%d')`. -/
def fmtDate (d : Date) : String := pad4 d.year ++ pad2 d.month ++ pad2 d.day

/-- The all-day iCal body built at lines 355–364. -/
def icalContentAllDay (uid title rrule : String) (d : Date) : String :=
  "BEGIN:VCALENDAR\nVERSION:2.0\nPRODID:-//Super Productivity Sync//EN\n" ++
  "BEGIN:VEVENT\nUID:" ++ uid ++
  "\nDTSTART;VALUE=DATE:" ++ fmtDate d ++
  "\nDTEND;VALUE=DATE:" ++ fmtDate d.next ++
  "\nSUMMARY:" ++ title ++ rrule ++
  "\nEND:VEVENT\nEND:VCALENDAR"

/-- The timed iCal body built at lines 368–376 (no DTEND field). -/
def icalContentTimed (uid title rrule dtstartStr : String) : String :=
  "BEGIN:VCALENDAR\nVERSION:2.0\nPRODID:-//Super Productivity Sync//EN\n" ++
  "BEGIN:VEVENT\nUID:" ++ uid ++
  "\nDTSTART:" ++ dtstartStr ++
  "\nSUMMARY:" ++ title ++ rrule ++
  "\nEND:VEVENT\nEND:VCALENDAR"

/-- The event stored by the create path (raw PUT of the bodies above):
an all-day event carries the exclusive end date `start + 1`; a timed
event carries no end, and its start is truncated to whole seconds by
the `%Y%m%dT%H%M%SZ` format. The store holds the event as written on
the wire: the create body interpolates the title into `SUMMARY:` with
**no escaping**, so the stored summary text is the title verbatim (a
later read passes it through `icalUnescape`). -/
def materializeCreate (title : String) (due : Due) (cfg : Option Json) :
    StoredEvent :=
  match due with
  | Due.allday d =>
    { summary := title
      dtstart := some (StoredStart.allday d)
      dtend := some (StoredStart.allday d.next)
      duration := none
      rrule := rruleLine cfg
      others := [] }
  | Due.instant ms =>
    { summary := title
      dtstart := some (StoredStart.instant (truncMs ms))
      dtend := none
      duration := none
      rrule := rruleLine cfg
      others := [] }

/-- The in-place VEVENT mutation of lines 287–299 followed by `save()`:
summary and DTSTART are rewritten; the all-day branch sets the exclusive
DTEND and deletes DURATION; the timed branch deletes DTEND and DURATION
(its stored start is second-truncated by `icalendar.vDatetime`). Every
other property of the event is left as it was. The store holds the
event as serialized on the wire, so the summary text written by `save()`
is the title passed through `icalendar`'s `escape_char`. -/
def applyUpdate (ev : StoredEvent) (title : String) (due : Due) :
    StoredEvent :=
  match due with
  | Due.allday d =>
    { ev with
      summary := icalEscape title
      dtstart := some (StoredStart.allday d)
      dtend := some (StoredStart.allday d.next)
      duration := none }
  | Due.instant ms =>
    { ev with
      summary := icalEscape title
      dtstart := some (StoredStart.instant (truncMs ms))
      dtend := none
      duration := none }

/-- Processing of one entry of `data['task']['entities']`: normalize,
look up by UID, decide, and create or update the store; excluded tasks
produce no decision. The stored summary text is read back through
`icalUnescape` — this is `current_summary = str(vevent.get('summary'))`
at line 261, where `vText.from_ical` unescapes the stored text. -/
def processTask (s : CalStore) (tid : String) (t : Task) :
    CalStore × Option Decision :=
  match normalize t with
  | none => (s, none)
  | some due =>
    let title := taskTitle t
    let uid := eventUid tid
    match s uid with
    | none =>
      (storeSet s uid (materializeCreate title due t.repeatCfg),
       some Decision.create)
    | some ev =>
      if needsUpdate ev.dtstart (icalUnescape ev.summary) due title then
        (storeSet s uid (applyUpdate ev title due), some Decision.update)
      else (s, some Decision.skip)

/-- One sync cycle over the task entities in payload order, threading the
calendar store; the returned list collects the decision of every
non-excluded task. -/
def runCycle : List (String × Task) → CalStore → CalStore × List Decision
  | [], s => (s, [])
  | (tid, t) :: rest, s =>
    let r1 := processTask s tid t
    let r2 := runCycle rest r1.1
    (r2.1, match r1.2 with
           | none => r2.2
           | some d0 => d0 :: r2.2)

/-! ### Payload resolution (`fetch_task_data`, lines 54–84)

The text of a fetched candidate is pre-processed (the `pf_` marker is
stripped up to and including the first `__`), parsed as JSON and
classified into one of the three accepted shapes. `json.loads` is an
external library call; it is modelled by the recursive-descent parser
below (restricted to integer numbers and single-character string escapes,
which covers every payload the engine reads). -/

/-- Does the text start with the `pf_` marker (`text.startswith('pf_')`)? -/
def startsWithPf : List Char → Bool
  | c1 :: c2 :: c3 :: _ => c1 == 'p' && c2 == 'f' && c3 == '_'
  | _ => false

/-- Everything after the first `__` occurrence, or `none` when there is
none (`text.split('__', 1)` keeping only the part after the first
separator). -/
def sepSplit : List Char → Option (List Char)
  | c1 :: c2 :: rest =>
    if c1 = '_' ∧ c2 = '_' then some rest else sepSplit (c2 :: rest)
  | _ => none

/-- The pre-processing of lines 54–62: when the text starts with `pf_`
and contains a `__` separator, keep only what follows the first
separator; otherwise the raw text is kept. -/
def stripMarker (cs : List Char) : List Char :=
  if startsWithPf cs then
    match sepSplit cs with
    | some rest => rest
    | none => cs
  else cs

/-- JSON whitespace. -/
def isWs (c : Char) : Bool :=
  c == ' ' || c == '\t' || c == '\n' || c == '\r'

/-- Drop leading JSON whitespace. -/
def skipWs : List Char → List Char
  | [] => []
  | c :: rest => if isWs c then skipWs rest else c :: rest

/-- Single-character JSON string escapes (model restriction: `\uXXXX`
escapes are not supported). -/
def escChar (c : Char) : Option Char :=
  if c = '"' then some '"'
  else if c = '\\' then some '\\'
  else if c = '/' then some '/'
  else if c = 'n' then some '\n'
  else if c = 't' then some '\t'
  else if c = 'r' then some '\r'
  else if c = 'b' then some (Char.ofNat 8)
  else if c = 'f' then some (Char.ofNat 12)
  else none

/-- Parse the body of a JSON string after the opening quote, returning
the content and the rest after the closing quote. -/
def parseStrBody : List Char → Option (List Char × List Char)
  | [] => none
  | '"' :: rest => some ([], rest)
  | '\\' :: rest =>
    match rest with
    | [] => none
    | e :: rest2 =>
      match escChar e with
      | none => none
      | some c =>
        match parseStrBody rest2 with
        | none => none
        | some (content, rem) => some (c :: content, rem)
  | c :: rest =>
    match parseStrBody rest with
    | none => none
    | some (content, rem) => some (c :: content, rem)

/-- Split off a maximal run of leading decimal digits. -/
def spanDigits : List Char → List Char × List Char
  | [] => ([], [])
  | c :: rest =>
    if '0' ≤ c && c ≤ '9' then
      match spanDigits rest with
      | (ds, rem) => (c :: ds, rem)
    else ([], c :: rest)

/-- Consume an expected literal keyword tail (`rue`, `alse`, `ull`). -/
def dropLit : List Char → List Char → Option (List Char)
  | [], cs => some cs
  | _ :: _, [] => none
  | l :: ls, c :: cs => if c = l then dropLit ls cs else none

/-- The opening brace character. -/
def lbrace : Char := Char.ofNat 123

/-- The closing brace character. -/
def rbrace : Char := Char.ofNat 125

/-- Intermediate parse result: a value, object members, or array items. -/
inductive PRes where
  | v (j : Json)
  | kvs (l : List (String × Json))
  | xs (l : List Json)

/-- Parser mode: a JSON value, the members of a non-empty object, or the
items of a non-empty array. -/
inductive PMode where
  | val
  | members
  | items

/-- Fuel-indexed recursive-descent JSON parser (model of `json.loads`). -/
def parseAny : Nat → PMode → List Char → Option (PRes × List Char)
  | 0, _, _ => none
  | Nat.succ f, PMode.val, cs =>
    match skipWs cs with
    | [] => none
    | c :: rest =>
      if c = '"' then
        match parseStrBody rest with
        | some (content, rem) => some (PRes.v (Json.str (String.mk content)), rem)
        | none => none
      else if c = lbrace then
        match skipWs rest with
        | c2 :: rest2 =>
          if c2 = rbrace then some (PRes.v (Json.obj []), rest2)
          else
            match parseAny f PMode.members rest with
            | some (PRes.kvs l, rem) => some (PRes.v (Json.obj l), rem)
            | _ => none
        | [] => none
      else if c = '[' then
        match skipWs rest with
        | c2 :: rest2 =>
          if c2 = ']' then some (PRes.v (Json.arr []), rest2)
          else
            match parseAny f PMode.items rest with
            | some (PRes.xs l, rem) => some (PRes.v (Json.arr l), rem)
            | _ => none
        | [] => none
      else if c = 't' then
        match dropLit ['r', 'u', 'e'] rest with
        | some rem => some (PRes.v (Json.bool true), rem)
        | none => none
      else if c = 'f' then
        match dropLit ['a', 'l', 's', 'e'] rest with
        | some rem => some (PRes.v (Json.bool false), rem)
        | none => none
      else if c = 'n' then
        match dropLit ['u', 'l', 'l'] rest with
        | some rem => some (PRes.v Json.null, rem)
        | none => none
      else if c = '-' then
        match spanDigits rest with
        | ([], _) => none
        | (ds, rem) =>
          match parseNatDigits ds with
          | some v => some (PRes.v (Json.num (-(v : Int))), rem)
          | none => none
      else
        match spanDigits (c :: rest) with
        | ([], _) => none
        | (ds, rem) =>
          match parseNatDigits ds with
          | some v => some (PRes.v (Json.num (v : Int)), rem)
          | none => none
  | Nat.succ f, PMode.members, cs =>
    match skipWs cs with
    | '"' :: rest =>
      match parseStrBody rest with
      | none => none
      | some (key, rem) =>
        match skipWs rem with
        | ':' :: rem2 =>
          match parseAny f PMode.val rem2 with
          | some (PRes.v jv, rem3) =>
            match skipWs rem3 with
            | c :: rem4 =>
              if c = ',' then
                match parseAny f PMode.members rem4 with
                | some (PRes.kvs l, rem5) =>
                  some (PRes.kvs ((String.mk key, jv) :: l), rem5)
                | _ => none
              else if c = rbrace then
                some (PRes.kvs [(String.mk key, jv)], rem4)
              else none
            | [] => none
          | _ => none
        | _ => none
    | _ => none
  | Nat.succ f, PMode.items, cs =>
    match parseAny f PMode.val cs with
    | some (PRes.v jv, rem) =>
      match skipWs rem with
      | c :: rem2 =>
        if c = ',' then
          match parseAny f PMode.items rem2 with
          | some (PRes.xs l, rem3) => some (PRes.xs (jv :: l), rem3)
          | _ => none
        else if c = ']' then some (PRes.xs [jv], rem2)
        else none
      | [] => none
    | _ => none

/-- Parse one JSON value from the front of the text. -/
def parseVal (cs : List Char) : Option (Json × List Char) :=
  match parseAny (2 * cs.length + 4) PMode.val cs with
  | some (PRes.v j, rem) => some (j, rem)
  | _ => none

/-- Model of `json.loads`: one value, with only whitespace after it. -/
def parseJson (cs : List Char) : Option Json :=
  match parseVal cs with
  | some (j, rem) => if skipWs rem = [] then some j else none
  | none => none

/-- Substring test (Python `needle in haystack` on strings). -/
def subSeg : List Char → List Char → Bool
  | needle, [] => needle.isEmpty
  | needle, c :: rest => leadSegEq needle (c :: rest) || subSeg needle rest

/-- Python's `key in value` on a JSON value: key membership on a dict,
substring on a string, element equality on a list; a `TypeError` on any
other type, modelled as `none` (it aborts the candidate). -/
def pyIn (key : String) : Json → Option Bool
  | Json.obj kvs => some (kvs.any (fun p => p.1 == key))
  | Json.str s => some (subSeg key.data s.data)
  | Json.arr xs =>
    some (xs.any (fun j =>
      match j with
      | Json.str s => s == key
      | _ => false))
  | _ => none

/-- Python's `value[key]` subscript: dict lookup, `TypeError`/`KeyError`
(modelled as `none`) otherwise. -/
def pySub (j : Json) (key : String) : Option Json :=
  match j with
  | Json.obj kvs => (kvs.find? (fun p => p.1 == key)).map Prod.snd
  | _ => none

/-- Shape classification of lines 67–84, first match wins:
1. `'task' in data and 'entities' in data['task']` → return `data`;
2. `'entities' in data` → return `{'task': data}`;
3. `'mainModelData' in data and 'task' in data['mainModelData']` →
   return `{'task': data['mainModelData']['task']}`;
otherwise (or on a `TypeError` along the way) the candidate yields
nothing. -/
def classify (data : Json) : Option Json :=
  match pyIn "task" data with
  | none => none
  | some b1 =>
    match (if b1 then (pySub data "task").bind (fun t => pyIn "entities" t)
           else some false) with
    | none => none
    | some true => some data
    | some false =>
      match pyIn "entities" data with
      | none => none
      | some true => some (Json.obj [("task", data)])
      | some false =>
        match pyIn "mainModelData" data with
        | none => none
        | some b3 =>
          match (if b3 then
                   (pySub data "mainModelData").bind (fun md => pyIn "task" md)
                 else some false) with
          | none => none
          | some true =>
            match (pySub data "mainModelData").bind
                (fun md => pySub md "task") with
            | some t => some (Json.obj [("task", t)])
            | none => none
          | some false => none

/-- Full resolution of one candidate text: strip the `pf_` marker, parse
as JSON and classify the shape into the canonical `{'task': ...}` map. -/
def resolveContent (cs : List Char) : Option Json :=
  (parseJson (stripMarker cs)).bind classify

/-! ### Derived notions used by the verification -/

/-- The start value a write (create or update) stores for a due. -/
def startOfDue : Due → Option StoredStart
  | Due.instant ms => some (StoredStart.instant (truncMs ms))
  | Due.allday d => some (StoredStart.allday d)

/-- Second-alignment test of a task's due: the wire formats store whole
seconds, so idempotence needs the due instant to be a multiple of 1000 ms
(definition follows the amended claim). -/
def dueAlignedB (t : Task) : Bool :=
  match normalize t with
  | some (Due.instant ms) => ms % 1000 == 0
  | _ => true

/-- Round-trip test of a task's effective title through the iCalendar
text layer (definition follows the amended idempotence claim): the raw
summary written by the create path must unescape to itself, the escaped
summary written by the update path must unescape back to the title, and
the title must contain no raw line break (a raw CR or LF would break the
hand-assembled single-line `SUMMARY:` of the create body). -/
def titleRoundTrips (t : Task) : Bool :=
  icalUnescape (taskTitle t) == taskTitle t &&
  icalUnescape (icalEscape (taskTitle t)) == taskTitle t &&
  !(taskTitle t).data.contains '\n' &&
  !(taskTitle t).data.contains '\r'

/-- A payload with one second-aligned all-day task whose title `C:\new`
contains a backslash-`n` sequence, so its raw written summary unescapes
to a different string. -/
def escTitleTasks : List (String × Task) :=
  [("a", { dueDay := some "2024-03-01", title := some "C:\\new" })]

/-- A store is in sync with a task when the event at the task's UID (if
the task is not excluded) compares clean on read-back, so the next cycle
skips it. -/
def synced (s : CalStore) (tid : String) (t : Task) : Prop :=
  ∀ due, normalize t = some due →
    ∃ ev, s (eventUid tid) = some ev ∧
      needsUpdate ev.dtstart (icalUnescape ev.summary) due (taskTitle t) =
        false

/-- The scenario task of the spec:
`{"id":"t1","title":"Pay rent","dueDay":"2024-03-01"}`. -/
def payRentTask : Task := { title := some "Pay rent", dueDay := some "2024-03-01" }

/-- A payload with two tasks (one all-day, one second-aligned timed) used
as a concrete idempotence run. -/
def w1Tasks : List (String × Task) :=
  [("a", { dueDay := some "2024-03-01", title := some "T" }),
   ("b", { dueWithTime := some 5000 })]

/-- A payload with one timed task whose due instant is not second-aligned
(1 epoch-millisecond). -/
def subSecondTasks : List (String × Task) :=
  [("a", { dueWithTime := some 1 })]

/-! ### Helper lemmas about the embedding -/

theorem storeSet_same (s : CalStore) (k : String) (v : StoredEvent) :
    storeSet s k v k = some v := by
  simp [storeSet]

theorem storeSet_other (s : CalStore) (k u : String) (v : StoredEvent)
    (h : u ≠ k) : storeSet s k v u = s u := by
  simp [storeSet, h]

theorem eventUid_inj (a b : String) (h : eventUid a = eventUid b) : a = b := by
  obtain ⟨la⟩ := a
  obtain ⟨lb⟩ := b
  have h2 : "super-productivity-".data ++ la =
      "super-productivity-".data ++ lb := by
    have h3 := congrArg String.data h
    simpa [eventUid, String.append] using h3
  exact congrArg String.mk (List.append_cancel_left h2)

theorem processTask_excluded (s : CalStore) (tid : String) (t : Task)
    (h : normalize t = none) : processTask s tid t = (s, none) := by
  simp [processTask, h]

theorem processTask_create (s : CalStore) (tid : String) (t : Task) (due : Due)
    (hn : normalize t = some due) (hs : s (eventUid tid) = none) :
    processTask s tid t =
      (storeSet s (eventUid tid)
        (materializeCreate (taskTitle t) due t.repeatCfg),
       some Decision.create) := by
  simp [processTask, hn, hs]

theorem processTask_found_update (s : CalStore) (tid : String) (t : Task)
    (due : Due) (ev : StoredEvent)
    (hn : normalize t = some due) (hev : s (eventUid tid) = some ev)
    (hup : needsUpdate ev.dtstart (icalUnescape ev.summary) due
      (taskTitle t) = true) :
    processTask s tid t =
      (storeSet s (eventUid tid) (applyUpdate ev (taskTitle t) due),
       some Decision.update) := by
  simp [processTask, hn, hev, hup]

theorem processTask_found_skip (s : CalStore) (tid : String) (t : Task)
    (due : Due) (ev : StoredEvent)
    (hn : normalize t = some due) (hev : s (eventUid tid) = some ev)
    (hup : needsUpdate ev.dtstart (icalUnescape ev.summary) due
      (taskTitle t) = false) :
    processTask s tid t = (s, some Decision.skip) := by
  simp [processTask, hn, hev, hup]

theorem materializeCreate_summary (title : String) (due : Due)
    (cfg : Option Json) : (materializeCreate title due cfg).summary = title := by
  cases due <;> rfl

theorem applyUpdate_rrule (ev : StoredEvent) (title : String) (due : Due) :
    (applyUpdate ev title due).rrule = ev.rrule := by
  cases due <;> rfl

theorem applyUpdate_others (ev : StoredEvent) (title : String) (due : Due) :
    (applyUpdate ev title due).others = ev.others := by
  cases due <;> rfl

theorem startsWithPf_append (m r : List Char) (h : startsWithPf m = true) :
    startsWithPf (m ++ r) = true := by
  match m with
  | [] => simp [startsWithPf] at h
  | [c1] => simp [startsWithPf] at h
  | [c1, c2] => simp [startsWithPf] at h
  | c1 :: c2 :: c3 :: m' => simpa [startsWithPf] using h

theorem sepSplit_append (m B : List Char) (h1 : sepSplit m = none)
    (h2 : m.getLast? ≠ some '_') :
    sepSplit (m ++ '_' :: '_' :: B) = some B := by
  induction m with
  | nil => simp [sepSplit]
  | cons c m' ih =>
    cases m' with
    | nil =>
      have hc : c ≠ '_' := by
        intro h
        exact h2 (by simp [h])
      simp [sepSplit, hc]
    | cons c2 m2 =>
      rw [sepSplit] at h1
      by_cases hcc : c = '_' ∧ c2 = '_'
      · rw [if_pos hcc] at h1
        exact absurd h1 (by simp)
      · rw [if_neg hcc] at h1
        have h2' : (c2 :: m2).getLast? ≠ some '_' := by
          simpa [List.getLast?_cons_cons] using h2
        rw [show (c :: c2 :: m2) ++ '_' :: '_' :: B =
            c :: c2 :: (m2 ++ '_' :: '_' :: B) from rfl]
        rw [sepSplit, if_neg hcc]
        exact ih h1 h2'

/-! ### Idempotence machinery for C1 -/

theorem materializeCreate_dtstart (title : String) (due : Due)
    (cfg : Option Json) :
    (materializeCreate title due cfg).dtstart = startOfDue due := by
  cases due <;> rfl

theorem applyUpdate_dtstart (ev : StoredEvent) (title : String) (due : Due) :
    (applyUpdate ev title due).dtstart = startOfDue due := by
  cases due <;> rfl

theorem applyUpdate_summary (ev : StoredEvent) (title : String) (due : Due) :
    (applyUpdate ev title due).summary = icalEscape title := by
  cases due <;> rfl

theorem titleRoundTrips_spec (t : Task) (h : titleRoundTrips t = true) :
    icalUnescape (taskTitle t) = taskTitle t ∧
    icalUnescape (icalEscape (taskTitle t)) = taskTitle t := by
  unfold titleRoundTrips at h
  simp only [Bool.and_eq_true, beq_iff_eq] at h
  exact ⟨h.1.1.1, h.1.1.2⟩

theorem dueAlignedB_spec (t : Task) (due : Due) (h : dueAlignedB t = true)
    (hn : normalize t = some due) :
    ∀ ms, due = Due.instant ms → ms % 1000 = 0 := by
  intro ms hms
  subst hms
  unfold dueAlignedB at h
  rw [hn] at h
  simpa using h

/-- An event just written for a task compares clean against the same
task, provided its stored summary text reads back as the title. -/
theorem needsUpdate_after_write (title : String) (due : Due)
    (ev : StoredEvent) (hsum : icalUnescape ev.summary = title)
    (hst : ev.dtstart = startOfDue due)
    (hal : ∀ ms, due = Due.instant ms → ms % 1000 = 0) :
    needsUpdate ev.dtstart (icalUnescape ev.summary) due title = false := by
  cases due with
  | instant ms =>
    have htr : truncMs ms = ms := by
      have h0 := hal ms rfl
      unfold truncMs
      omega
    rw [hst, hsum]
    simp [needsUpdate, startOfDue, htr]
  | allday d =>
    rw [hst, hsum]
    simp [needsUpdate, startOfDue]

theorem processTask_synced (s : CalStore) (tid : String) (t : Task)
    (hal : dueAlignedB t = true) (hrt : titleRoundTrips t = true) :
    synced (processTask s tid t).1 tid t := by
  intro due hn
  rcases hs : s (eventUid tid) with _ | ev
  · rw [processTask_create s tid t due hn hs]
    refine ⟨materializeCreate (taskTitle t) due t.repeatCfg,
      storeSet_same s (eventUid tid) _, ?_⟩
    refine needsUpdate_after_write (taskTitle t) due _ ?_
      (materializeCreate_dtstart (taskTitle t) due t.repeatCfg)
      (dueAlignedB_spec t due hal hn)
    rw [materializeCreate_summary (taskTitle t) due t.repeatCfg]
    exact (titleRoundTrips_spec t hrt).1
  · by_cases hup : needsUpdate ev.dtstart (icalUnescape ev.summary) due
      (taskTitle t) = true
    · rw [processTask_found_update s tid t due ev hn hs hup]
      refine ⟨applyUpdate ev (taskTitle t) due,
        storeSet_same s (eventUid tid) _, ?_⟩
      refine needsUpdate_after_write (taskTitle t) due _ ?_
        (applyUpdate_dtstart ev (taskTitle t) due)
        (dueAlignedB_spec t due hal hn)
      rw [applyUpdate_summary ev (taskTitle t) due]
      exact (titleRoundTrips_spec t hrt).2
    · rw [processTask_found_skip s tid t due ev hn hs (by simpa using hup)]
      exact ⟨ev, hs, by simpa using hup⟩

theorem processTask_frame (s : CalStore) (tid : String) (t : Task)
    (u : String) (hu : u ≠ eventUid tid) :
    (processTask s tid t).1 u = s u := by
  rcases hn : normalize t with _ | due
  · rw [processTask_excluded s tid t hn]
  · rcases hs : s (eventUid tid) with _ | ev
    · rw [processTask_create s tid t due hn hs]
      exact storeSet_other s (eventUid tid) u _ hu
    · by_cases hup : needsUpdate ev.dtstart (icalUnescape ev.summary) due
        (taskTitle t) = true
      · rw [processTask_found_update s tid t due ev hn hs hup]
        exact storeSet_other s (eventUid tid) u _ hu
      · rw [processTask_found_skip s tid t due ev hn hs (by simpa using hup)]

theorem runCycle_cons (tid : String) (t : Task)
    (rest : List (String × Task)) (s : CalStore) :
    runCycle ((tid, t) :: rest) s =
      ((runCycle rest (processTask s tid t).1).1,
       match (processTask s tid t).2 with
       | none => (runCycle rest (processTask s tid t).1).2
       | some d0 => d0 :: (runCycle rest (processTask s tid t).1).2) := rfl

theorem runCycle_frame (tasks : List (String × Task)) (s : CalStore)
    (u : String) (hu : ∀ p ∈ tasks, u ≠ eventUid p.1) :
    (runCycle tasks s).1 u = s u := by
  induction tasks generalizing s with
  | nil => rfl
  | cons q rest ih =>
    obtain ⟨tid, t⟩ := q
    have h1 : (runCycle ((tid, t) :: rest) s).1 =
        (runCycle rest (processTask s tid t).1).1 := rfl
    rw [h1, ih (processTask s tid t).1
      (fun q hq => hu q (List.mem_cons_of_mem _ hq))]
    exact processTask_frame s tid t u (hu (tid, t) (List.mem_cons_self _ _))

theorem runCycle_synced (tasks : List (String × Task)) (s : CalStore)
    (hnd : (tasks.map Prod.fst).Nodup)
    (hal : ∀ p ∈ tasks, dueAlignedB p.2 = true)
    (hrt : ∀ p ∈ tasks, titleRoundTrips p.2 = true) :
    ∀ p ∈ tasks, synced (runCycle tasks s).1 p.1 p.2 := by
  induction tasks generalizing s with
  | nil =>
    intro p hp
    cases hp
  | cons q rest ih =>
    obtain ⟨tid, t⟩ := q
    intro p hp
    have h1 : (runCycle ((tid, t) :: rest) s).1 =
        (runCycle rest (processTask s tid t).1).1 := rfl
    rcases List.mem_cons.mp hp with rfl | hmem
    · intro due hn
      have hsy : synced (processTask s tid t).1 tid t :=
        processTask_synced s tid t (hal (tid, t) (List.mem_cons_self _ _))
          (hrt (tid, t) (List.mem_cons_self _ _))
      have hag : (runCycle rest (processTask s tid t).1).1 (eventUid tid) =
          (processTask s tid t).1 (eventUid tid) := by
        apply runCycle_frame
        intro q hq heq
        have hqid : tid = q.1 := eventUid_inj tid q.1 heq
        have hnotin : tid ∉ rest.map Prod.fst :=
          (List.nodup_cons.mp (by simpa using hnd)).1
        exact hnotin (hqid ▸ List.mem_map_of_mem Prod.fst hq)
      rw [h1, hag]
      exact hsy due hn
    · rw [h1]
      exact ih (processTask s tid t).1
        (List.nodup_cons.mp (by simpa using hnd)).2
        (fun q hq => hal q (List.mem_cons_of_mem _ hq))
        (fun q hq => hrt q (List.mem_cons_of_mem _ hq)) p hmem

theorem runCycle_skips (tasks : List (String × Task)) (s : CalStore)
    (h : ∀ p ∈ tasks, synced s p.1 p.2) :
    (runCycle tasks s).1 = s ∧
    ∀ d ∈ (runCycle tasks s).2, d = Decision.skip := by
  induction tasks with
  | nil =>
    refine ⟨rfl, ?_⟩
    intro d hd
    cases hd
  | cons q rest ih =>
    obtain ⟨tid, t⟩ := q
    have tail := ih (fun p hp => h p (List.mem_cons_of_mem _ hp))
    rcases hn : normalize t with _ | due
    · have hpt : processTask s tid t = (s, none) :=
        processTask_excluded s tid t hn
      rw [runCycle_cons, hpt]
      exact tail
    · obtain ⟨ev, hev, hup⟩ := h (tid, t) (List.mem_cons_self _ _) due hn
      have hpt : processTask s tid t = (s, some Decision.skip) :=
        processTask_found_skip s tid t due ev hn hev hup
      rw [runCycle_cons, hpt]
      refine ⟨tail.1, ?_⟩
      intro d hd
      rcases List.mem_cons.mp hd with rfl | hd2
      · rfl
      · exact tail.2 d hd2

/-! ### Claim theorems -/

/-- C2: the reconciler decides Create when no event is found by the
deterministic identifier; with an existing event (whose DTSTART is an
instant or an all-day date) it decides Update exactly when the two starts
are both instants with different offset-stripped values, both dates with
different values, of different types, or the summary differs from the
title by exact string comparison — and otherwise Skip. -/
theorem c2_reconciler_decision (ev : StoredEvent) (st : StoredStart)
    (due : Due) (title : String) (hst : ev.dtstart = some st) :
    decideTask none due title = Decision.create ∧
    (decideTask (some ev) due title = Decision.update ↔
      ((∃ a b, st = StoredStart.instant a ∧ due = Due.instant b ∧ a ≠ b) ∨
       (∃ a b, st = StoredStart.allday a ∧ due = Due.allday b ∧ a ≠ b) ∨
       (∃ a b, st = StoredStart.instant a ∧ due = Due.allday b) ∨
       (∃ a b, st = StoredStart.allday a ∧ due = Due.instant b) ∨
       title ≠ ev.summary)) ∧
    (decideTask (some ev) due title = Decision.update ∨
     decideTask (some ev) due title = Decision.skip) := by
  have hdef : decideTask (some ev) due title =
      (if needsUpdate ev.dtstart ev.summary due title then Decision.update
       else Decision.skip) := rfl
  have key : decideTask (some ev) due title = Decision.update ↔
      needsUpdate ev.dtstart ev.summary due title = true := by
    rw [hdef]
    split_ifs with h <;> simp [h]
  refine ⟨rfl, ?_, ?_⟩
  · rw [key]
    unfold needsUpdate
    rw [hst]
    rcases st with a | a <;> rcases due with b | b <;>
      simp [bne_iff_ne]
  · rw [hdef]
    split_ifs <;> simp

/-- C2 witness: a concrete existing event whose instant start differs from
the task due instant forces Update; the reconciler on a missing event
yields Create. -/
theorem c2_reconciler_decision_witness :
    decideTask none (Due.instant 1000) "A" = Decision.create ∧
    (decideTask
        (some { summary := "A", dtstart := some (StoredStart.instant 0),
                dtend := none, duration := none, rrule := "", others := [] })
        (Due.instant 1000) "A" = Decision.update ↔
      ((∃ a b, StoredStart.instant 0 = StoredStart.instant a ∧
          Due.instant 1000 = Due.instant b ∧ a ≠ b) ∨
       (∃ a b, StoredStart.instant 0 = StoredStart.allday a ∧
          Due.instant 1000 = Due.allday b ∧ a ≠ b) ∨
       (∃ a b, StoredStart.instant 0 = StoredStart.instant a ∧
          Due.instant 1000 = Due.allday b) ∨
       (∃ a b, StoredStart.instant 0 = StoredStart.allday a ∧
          Due.instant 1000 = Due.instant b) ∨
       "A" ≠ ("A" : String))) ∧
    (decideTask
        (some { summary := "A", dtstart := some (StoredStart.instant 0),
                dtend := none, duration := none, rrule := "", others := [] })
        (Due.instant 1000) "A" = Decision.update ∨
     decideTask
        (some { summary := "A", dtstart := some (StoredStart.instant 0),
                dtend := none, duration := none, rrule := "", others := [] })
        (Due.instant 1000) "A" = Decision.skip) :=
  c2_reconciler_decision
    { summary := "A", dtstart := some (StoredStart.instant 0),
      dtend := none, duration := none, rrule := "", others := [] }
    (StoredStart.instant 0) (Due.instant 1000) "A" rfl

/-- C3 (amended): rule order of the due normalizer. A task with a truthy
parent reference is excluded and never produces a decision; otherwise a
present **nonzero** due instant takes precedence and yields `Instant` of
that epoch-millisecond value; otherwise a present non-empty due day that
parses yields `AllDay`; an unparseable due day, or no due information,
excludes the task. (Amendment forced by the counterexample: the code
tests `if due_timestamp:`, so a present due instant equal to `0` is
treated as absent, not as `Instant 0`.) -/
theorem c3_normalizer_amended (t : Task) (s : CalStore) (tid : String) :
    (optStrTruthy t.parentId = true → normalize t = none) ∧
    (normalize t = none → processTask s tid t = (s, none)) ∧
    (optStrTruthy t.parentId = false →
       ∀ ms, t.dueWithTime = some ms → ms ≠ 0 →
         normalize t = some (Due.instant ms)) ∧
    (optStrTruthy t.parentId = false → optIntTruthy t.dueWithTime = false →
       ∀ ds d, t.dueDay = some ds → ds ≠ "" → parseDueDay ds = some d →
         normalize t = some (Due.allday d)) ∧
    (optStrTruthy t.parentId = false → optIntTruthy t.dueWithTime = false →
       ∀ ds, t.dueDay = some ds → ds ≠ "" → parseDueDay ds = none →
         normalize t = none) ∧
    (optStrTruthy t.parentId = false → optIntTruthy t.dueWithTime = false →
       optStrTruthy t.dueDay = false → normalize t = none) := by
  refine ⟨?_, ?_, ?_, ?_, ?_, ?_⟩
  · intro hpar
    simp only [normalize, hpar]
    simp
  · intro h
    exact processTask_excluded s tid t h
  · intro hpar ms hms hms0
    simp only [normalize, hpar, hms]
    simp [optIntTruthy, hms0]
  · intro hpar hms ds d hds hne hp
    simp only [normalize, hpar, hms, hds]
    simp [optStrTruthy, hne, hp]
  · intro hpar hms ds hds hne hp
    simp only [normalize, hpar, hms, hds]
    simp [optStrTruthy, hne, hp]
  · intro hpar hms hds
    simp only [normalize, hpar, hms, hds]
    simp

/-- C3 witness: concrete tasks exercising each branch of the rule order. -/
theorem c3_normalizer_witness :
    normalize { parentId := some "p", dueWithTime := some 7 } = none ∧
    processTask emptyStore "w" { parentId := some "p", dueWithTime := some 7 }
      = (emptyStore, none) ∧
    normalize { dueWithTime := some 1234, dueDay := some "2024-03-01" }
      = some (Due.instant 1234) ∧
    normalize { dueDay := some "2024-03-01" }
      = some (Due.allday ⟨2024, 3, 1⟩) ∧
    normalize { dueDay := some "2024-13-01" } = none ∧
    normalize {} = none := by
  refine ⟨(c3_normalizer_amended _ emptyStore "w").1 (by decide),
          (c3_normalizer_amended _ emptyStore "w").2.1
            ((c3_normalizer_amended _ emptyStore "w").1 (by decide)),
          (c3_normalizer_amended _ emptyStore "w").2.2.1 (by decide)
            1234 rfl (by decide),
          (c3_normalizer_amended _ emptyStore "w").2.2.2.1 (by decide)
            (by decide) "2024-03-01" ⟨2024, 3, 1⟩ rfl (by decide) (by decide),
          (c3_normalizer_amended _ emptyStore "w").2.2.2.2.1 (by decide)
            (by decide) "2024-13-01" rfl (by decide) (by decide),
          (c3_normalizer_amended _ emptyStore "w").2.2.2.2.2 (by decide)
            (by decide) (by decide)⟩

/-- C3 counterexample: a task whose due instant is present and equal to
`0` epoch-milliseconds is excluded by the code (Python falsiness of `0`),
while the claim requires the result `Instant 0`. -/
theorem c3_normalizer_counterexample :
    normalize { dueWithTime := some 0 } = none ∧
    normalize { dueWithTime := some 0 } ≠ some (Due.instant 0) := by
  exact ⟨rfl, by decide⟩

/-- C4: an all-day materialization writes UID `super-productivity-<id>`,
summary = title, a date-only start at the due date and a date-only end one
day later; in particular the Pay-rent scenario yields Create with UID
`super-productivity-t1`, DTSTART `20240301` and DTEND `20240302`. -/
theorem c4_allday_materialization (s : CalStore) (tid : String) (t : Task)
    (d : Date) (hn : normalize t = some (Due.allday d))
    (hs : s (eventUid tid) = none) :
    ((processTask s tid t).2 = some Decision.create ∧
     (processTask s tid t).1 (eventUid tid) =
       some { summary := taskTitle t
              dtstart := some (StoredStart.allday d)
              dtend := some (StoredStart.allday d.next)
              duration := none
              rrule := rruleLine t.repeatCfg
              others := [] }) ∧
    (runCycle [("t1", payRentTask)] emptyStore).2 = [Decision.create] ∧
    (runCycle [("t1", payRentTask)] emptyStore).1 (eventUid "t1") =
      some { summary := "Pay rent"
             dtstart := some (StoredStart.allday ⟨2024, 3, 1⟩)
             dtend := some (StoredStart.allday ⟨2024, 3, 2⟩)
             duration := none
             rrule := ""
             others := [] } ∧
    eventUid "t1" = "super-productivity-t1" ∧
    icalContentAllDay (eventUid "t1") "Pay rent" "" ⟨2024, 3, 1⟩ =
      "BEGIN:VCALENDAR\nVERSION:2.0\nPRODID:-//Super Productivity Sync//EN\nBEGIN:VEVENT\nUID:super-productivity-t1\nDTSTART;VALUE=DATE:20240301\nDTEND;VALUE=DATE:20240302\nSUMMARY:Pay rent\nEND:VEVENT\nEND:VCALENDAR" := by
  refine ⟨⟨?_, ?_⟩, rfl, rfl, rfl, rfl⟩
  · rw [processTask_create s tid t (Due.allday d) hn hs]
  · rw [processTask_create s tid t (Due.allday d) hn hs]
    simpa [materializeCreate] using storeSet_same s (eventUid tid)
      (materializeCreate (taskTitle t) (Due.allday d) t.repeatCfg)

/-- C4 witness: the general part applied to the Pay-rent scenario task in
an empty calendar. -/
theorem c4_allday_materialization_witness :
    ((processTask emptyStore "t1" payRentTask).2 = some Decision.create ∧
     (processTask emptyStore "t1" payRentTask).1 (eventUid "t1") =
       some { summary := taskTitle payRentTask
              dtstart := some (StoredStart.allday ⟨2024, 3, 1⟩)
              dtend := some (StoredStart.allday (Date.next ⟨2024, 3, 1⟩))
              duration := none
              rrule := rruleLine payRentTask.repeatCfg
              others := [] }) ∧
    (runCycle [("t1", payRentTask)] emptyStore).2 = [Decision.create] ∧
    (runCycle [("t1", payRentTask)] emptyStore).1 (eventUid "t1") =
      some { summary := "Pay rent"
             dtstart := some (StoredStart.allday ⟨2024, 3, 1⟩)
             dtend := some (StoredStart.allday ⟨2024, 3, 2⟩)
             duration := none
             rrule := ""
             others := [] } ∧
    eventUid "t1" = "super-productivity-t1" ∧
    icalContentAllDay (eventUid "t1") "Pay rent" "" ⟨2024, 3, 1⟩ =
      "BEGIN:VCALENDAR\nVERSION:2.0\nPRODID:-//Super Productivity Sync//EN\nBEGIN:VEVENT\nUID:super-productivity-t1\nDTSTART;VALUE=DATE:20240301\nDTEND;VALUE=DATE:20240302\nSUMMARY:Pay rent\nEND:VEVENT\nEND:VCALENDAR" :=
  c4_allday_materialization emptyStore "t1" payRentTask ⟨2024, 3, 1⟩ rfl rfl

/-- C5: a timed (Instant) materialization carries no DTEND and no
DURATION; and an update that turns an all-day event into a timed one
deletes any stored DTEND and DURATION before saving. -/
theorem c5_timed_no_end (title : String) (ms : Int) (cfg : Option Json)
    (ev : StoredEvent) (d : Date)
    (hst : ev.dtstart = some (StoredStart.allday d)) :
    (materializeCreate title (Due.instant ms) cfg).dtend = none ∧
    (materializeCreate title (Due.instant ms) cfg).duration = none ∧
    (applyUpdate ev title (Due.instant ms)).dtend = none ∧
    (applyUpdate ev title (Due.instant ms)).duration = none :=
  ⟨rfl, rfl, rfl, rfl⟩

/-- C5 witness: a concrete all-day event updated to a timed due loses its
end and duration fields. -/
theorem c5_timed_no_end_witness :
    (materializeCreate "x" (Due.instant 1000) none).dtend = none ∧
    (materializeCreate "x" (Due.instant 1000) none).duration = none ∧
    (applyUpdate
        { summary := "x", dtstart := some (StoredStart.allday ⟨2024, 1, 1⟩),
          dtend := some (StoredStart.allday ⟨2024, 1, 2⟩), duration := some 5,
          rrule := "", others := [] }
        "x" (Due.instant 1000)).dtend = none ∧
    (applyUpdate
        { summary := "x", dtstart := some (StoredStart.allday ⟨2024, 1, 1⟩),
          dtend := some (StoredStart.allday ⟨2024, 1, 2⟩), duration := some 5,
          rrule := "", others := [] }
        "x" (Due.instant 1000)).duration = none :=
  c5_timed_no_end "x" 1000 none
    { summary := "x", dtstart := some (StoredStart.allday ⟨2024, 1, 1⟩),
      dtend := some (StoredStart.allday ⟨2024, 1, 2⟩), duration := some 5,
      rrule := "", others := [] }
    ⟨2024, 1, 1⟩ rfl

/-- C6 (amended): for an object-form repeat configuration the materializer
reads `repeatEvery`, falling back to `frequency`; a string value is
accepted exactly when its uppercase form is whitelisted, and any
non-string or non-whitelisted value is silently dropped. When **neither
key is present** on a non-empty object the frequency **defaults to the
literal `'DAILY'`** and `RRULE:FREQ=DAILY` is emitted. (Amendment forced
by the counterexample: the claim said the missing-key case emits no
recurrence rule, but the code's `.get('repeatEvery',
repeat_cfg.get('frequency', 'DAILY'))` supplies `'DAILY'`.) An empty
object is falsy and emits nothing. -/
theorem c6_object_recurrence_amended (kvs : List (String × Json)) :
    (kvs ≠ [] → jlookup kvs "repeatEvery" = none →
       jlookup kvs "frequency" = none →
       rruleLine (some (Json.obj kvs)) = "\nRRULE:FREQ=DAILY") ∧
    (∀ s, kvs ≠ [] → objFreq kvs = Json.str s →
       rruleLine (some (Json.obj kvs)) =
         (if freqWhitelist.contains (pyUpper s) then
            "\nRRULE:FREQ=" ++ pyUpper s
          else "")) ∧
    (kvs ≠ [] → (∀ s, objFreq kvs ≠ Json.str s) →
       rruleLine (some (Json.obj kvs)) = "") ∧
    rruleLine (some (Json.obj [])) = "" := by
  refine ⟨?_, ?_, ?_, rfl⟩
  · intro hne hre hfr
    have htr : (Json.obj kvs).truthy = true := by
      simp [Json.truthy, hne]
    have h2 : objFreq kvs = Json.str "DAILY" := by
      simp [objFreq, hre, hfr]
    simp [rruleLine, htr, h2]
    rfl
  · intro s hne hf
    have htr : (Json.obj kvs).truthy = true := by
      simp [Json.truthy, hne]
    simp [rruleLine, htr, hf]
  · intro hne hns
    have htr : (Json.obj kvs).truthy = true := by
      simp [Json.truthy, hne]
    rcases hof : objFreq kvs with _ | b | n | s | xs | kvs2
    · simp [rruleLine, htr, hof]
    · simp [rruleLine, htr, hof]
    · simp [rruleLine, htr, hof]
    · exact absurd hof (hns s)
    · simp [rruleLine, htr, hof]
    · simp [rruleLine, htr, hof]

/-- C6 witness: an object with neither frequency key defaults to DAILY;
an object with `repeatEvery = "weekly"` maps through the whitelist; an
object with a non-string `repeatEvery` emits nothing. -/
theorem c6_object_recurrence_witness :
    rruleLine (some (Json.obj [("quietDays", Json.num 1)])) =
      "\nRRULE:FREQ=DAILY" ∧
    rruleLine (some (Json.obj [("repeatEvery", Json.str "weekly")])) =
      (if freqWhitelist.contains (pyUpper "weekly") then
         "\nRRULE:FREQ=" ++ pyUpper "weekly"
       else "") ∧
    rruleLine (some (Json.obj [("repeatEvery", Json.num 2)])) = "" :=
  ⟨(c6_object_recurrence_amended [("quietDays", Json.num 1)]).1
     (by simp) rfl rfl,
   (c6_object_recurrence_amended [("repeatEvery", Json.str "weekly")]).2.1
     "weekly" (by simp) rfl,
   (c6_object_recurrence_amended [("repeatEvery", Json.num 2)]).2.2.1
     (by simp)
     (fun s h => Json.noConfusion (show Json.num 2 = Json.str s from h))⟩

/-- C6 counterexample: a non-empty object-form repeat configuration with
neither frequency key present emits `RRULE:FREQ=DAILY` — not, as the
claim states, no recurrence rule. -/
theorem c6_object_recurrence_counterexample :
    rruleLine (some (Json.obj [("quietDays", Json.num 1)])) =
      "\nRRULE:FREQ=DAILY" ∧
    rruleLine (some (Json.obj [("quietDays", Json.num 1)])) ≠ "" :=
  ⟨rfl, by decide⟩

/-- C7: a flat-string repeat configuration is uppercased and emits
`RRULE:FREQ=<value>` exactly when the uppercased value is whitelisted;
`"daily"` in any letter case yields `FREQ=DAILY`, and `"BIWEEKLY"` (or
any other unrecognized tag) yields no RRULE at all. -/
theorem c7_string_recurrence (s : String) :
    rruleLine (some (Json.str s)) =
      (if freqWhitelist.contains (pyUpper s) then "\nRRULE:FREQ=" ++ pyUpper s
       else "") ∧
    rruleLine (some (Json.str "daily")) = "\nRRULE:FREQ=DAILY" ∧
    rruleLine (some (Json.str "Daily")) = "\nRRULE:FREQ=DAILY" ∧
    rruleLine (some (Json.str "dAiLy")) = "\nRRULE:FREQ=DAILY" ∧
    rruleLine (some (Json.str "BIWEEKLY")) = "" ∧
    ∀ title due, (materializeCreate title due (some (Json.str s))).rrule =
      rruleLine (some (Json.str s)) := by
  refine ⟨?_, by decide, by decide, by decide, by decide, ?_⟩
  · by_cases h : s = ""
    · subst h; decide
    · simp [rruleLine, Json.truthy, h]
  · intro title due
    cases due <;> rfl

/-- C9 (implicit): when the title key is absent the created event's
summary is the literal `"Untitled Task"`; when a title is present the
summary mirrors it verbatim. -/
theorem c9_untitled_default (s : CalStore) (tid : String) (t : Task)
    (due : Due) (hn : normalize t = some due)
    (hs : s (eventUid tid) = none) :
    ∃ ev, (processTask s tid t).1 (eventUid tid) = some ev ∧
      (t.title = none → ev.summary = "Untitled Task") ∧
      ∀ ttl, t.title = some ttl → ev.summary = ttl := by
  refine ⟨materializeCreate (taskTitle t) due t.repeatCfg, ?_, ?_, ?_⟩
  · rw [processTask_create s tid t due hn hs]
    exact storeSet_same s (eventUid tid)
      (materializeCreate (taskTitle t) due t.repeatCfg)
  · intro h
    rw [materializeCreate_summary]
    simp [taskTitle, h]
  · intro ttl h
    rw [materializeCreate_summary]
    simp [taskTitle, h]

/-- C9 witness: a concrete titleless task creates an event whose summary
is `"Untitled Task"`. -/
theorem c9_untitled_default_witness :
    ∃ ev, (processTask emptyStore "u" { dueWithTime := some 1000 }).1
        (eventUid "u") = some ev ∧
      ((Task.mk none none (some 1000) none none none).title = none →
        ev.summary = "Untitled Task") ∧
      ∀ ttl, (Task.mk none none (some 1000) none none none).title = some ttl →
        ev.summary = ttl :=
  c9_untitled_default emptyStore "u" { dueWithTime := some 1000 }
    (Due.instant 1000) (by decide) rfl

/-- C10 (implicit frame property): an Update rewrites the stored event at
its own UID with only SUMMARY, DTSTART, DTEND and DURATION changed — the
RRULE and every other property are carried over unchanged and no other
UID of the store is touched; a Skip leaves the store untouched. -/
theorem c10_update_frame (s : CalStore) (tid : String) (t : Task)
    (due : Due) (ev : StoredEvent)
    (hn : normalize t = some due) (hev : s (eventUid tid) = some ev) :
    ((processTask s tid t).2 = some Decision.update →
       (processTask s tid t).1 (eventUid tid) =
         some (applyUpdate ev (taskTitle t) due) ∧
       (applyUpdate ev (taskTitle t) due).rrule = ev.rrule ∧
       (applyUpdate ev (taskTitle t) due).others = ev.others ∧
       ∀ u, u ≠ eventUid tid → (processTask s tid t).1 u = s u) ∧
    ((processTask s tid t).2 = some Decision.skip →
       (processTask s tid t).1 = s) := by
  by_cases hup : needsUpdate ev.dtstart (icalUnescape ev.summary) due
    (taskTitle t) = true
  · rw [processTask_found_update s tid t due ev hn hev hup]
    refine ⟨fun _ => ⟨?_, applyUpdate_rrule ev (taskTitle t) due,
      applyUpdate_others ev (taskTitle t) due, ?_⟩, ?_⟩
    · exact storeSet_same s (eventUid tid) (applyUpdate ev (taskTitle t) due)
    · intro u hu
      exact storeSet_other s (eventUid tid) u
        (applyUpdate ev (taskTitle t) due) hu
    · intro h
      simp at h
  · rw [processTask_found_skip s tid t due ev hn hev
      (by simpa using hup)]
    exact ⟨fun h => by simp at h, fun _ => rfl⟩

/-- C10 witness: a concrete update (changed summary) rewrites only the
reconciled fields at the event's own UID, and the skip clause on the same
store is vacuous. -/
theorem c10_update_frame_witness :
    ((processTask (storeSet emptyStore (eventUid "f")
        { summary := "old", dtstart := some (StoredStart.instant 0),
          dtend := none, duration := none, rrule := "RRULE:FREQ=DAILY",
          others := [("X-KEEP", "1")] }) "f"
        { dueWithTime := some 1000, title := some "new" }).2 =
          some Decision.update →
       (processTask (storeSet emptyStore (eventUid "f")
          { summary := "old", dtstart := some (StoredStart.instant 0),
            dtend := none, duration := none, rrule := "RRULE:FREQ=DAILY",
            others := [("X-KEEP", "1")] }) "f"
          { dueWithTime := some 1000, title := some "new" }).1 (eventUid "f") =
         some (applyUpdate
            { summary := "old", dtstart := some (StoredStart.instant 0),
              dtend := none, duration := none, rrule := "RRULE:FREQ=DAILY",
              others := [("X-KEEP", "1")] }
            (taskTitle { dueWithTime := some 1000, title := some "new" })
            (Due.instant 1000)) ∧
       (applyUpdate
          { summary := "old", dtstart := some (StoredStart.instant 0),
            dtend := none, duration := none, rrule := "RRULE:FREQ=DAILY",
            others := [("X-KEEP", "1")] }
          (taskTitle { dueWithTime := some 1000, title := some "new" })
          (Due.instant 1000)).rrule = "RRULE:FREQ=DAILY" ∧
       (applyUpdate
          { summary := "old", dtstart := some (StoredStart.instant 0),
            dtend := none, duration := none, rrule := "RRULE:FREQ=DAILY",
            others := [("X-KEEP", "1")] }
          (taskTitle { dueWithTime := some 1000, title := some "new" })
          (Due.instant 1000)).others = [("X-KEEP", "1")] ∧
       ∀ u, u ≠ eventUid "f" →
         (processTask (storeSet emptyStore (eventUid "f")
            { summary := "old", dtstart := some (StoredStart.instant 0),
              dtend := none, duration := none, rrule := "RRULE:FREQ=DAILY",
              others := [("X-KEEP", "1")] }) "f"
            { dueWithTime := some 1000, title := some "new" }).1 u =
           storeSet emptyStore (eventUid "f")
            { summary := "old", dtstart := some (StoredStart.instant 0),
              dtend := none, duration := none, rrule := "RRULE:FREQ=DAILY",
              others := [("X-KEEP", "1")] } u) ∧
    ((processTask (storeSet emptyStore (eventUid "f")
        { summary := "old", dtstart := some (StoredStart.instant 0),
          dtend := none, duration := none, rrule := "RRULE:FREQ=DAILY",
          others := [("X-KEEP", "1")] }) "f"
        { dueWithTime := some 1000, title := some "new" }).2 =
          some Decision.skip →
       (processTask (storeSet emptyStore (eventUid "f")
          { summary := "old", dtstart := some (StoredStart.instant 0),
            dtend := none, duration := none, rrule := "RRULE:FREQ=DAILY",
            others := [("X-KEEP", "1")] }) "f"
          { dueWithTime := some 1000, title := some "new" }).1 =
         storeSet emptyStore (eventUid "f")
          { summary := "old", dtstart := some (StoredStart.instant 0),
            dtend := none, duration := none, rrule := "RRULE:FREQ=DAILY",
            others := [("X-KEEP", "1")] }) :=
  c10_update_frame _ "f" { dueWithTime := some 1000, title := some "new" }
    (Due.instant 1000)
    { summary := "old", dtstart := some (StoredStart.instant 0),
      dtend := none, duration := none, rrule := "RRULE:FREQ=DAILY",
      others := [("X-KEEP", "1")] }
    (by decide) (storeSet_same _ _ _)

/-- C1 (amended): for a fixed payload and fixed remote state, running the
cycle again immediately after a completed run changes nothing and yields
only Skip decisions — zero Create and zero Update calls — provided every
task's due instant is second-aligned (a whole multiple of 1000 epoch
milliseconds) and every task's title survives the iCalendar text round
trip (it unescapes to itself, its escaped form unescapes back to it, and
it contains no raw line break). (Amendments forced by the
counterexamples: the wire formats store whole seconds, so a task with a
sub-second due instant compares unequal on every later run; and the
create body writes the summary unescaped while the read back through
`icalendar` unescapes it, so a title containing an escape-like sequence
such as `C:\new` also compares unequal on the next run.) -/
theorem c1_idempotence_amended (tasks : List (String × Task)) (s0 : CalStore)
    (hnd : (tasks.map Prod.fst).Nodup)
    (hal : ∀ p ∈ tasks, dueAlignedB p.2 = true)
    (hrt : ∀ p ∈ tasks, titleRoundTrips p.2 = true) :
    (runCycle tasks (runCycle tasks s0).1).1 = (runCycle tasks s0).1 ∧
    (∀ d ∈ (runCycle tasks (runCycle tasks s0).1).2, d = Decision.skip) ∧
    (runCycle tasks (runCycle tasks s0).1).2.count Decision.create = 0 ∧
    (runCycle tasks (runCycle tasks s0).1).2.count Decision.update = 0 := by
  have hsy := runCycle_synced tasks s0 hnd hal hrt
  have h2 := runCycle_skips tasks (runCycle tasks s0).1 hsy
  refine ⟨h2.1, h2.2, ?_, ?_⟩
  · rw [List.count_eq_zero]
    intro hc
    exact absurd (h2.2 _ hc) (by decide)
  · rw [List.count_eq_zero]
    intro hc
    exact absurd (h2.2 _ hc) (by decide)

/-- C1 witness: the two-task payload run twice from an empty calendar
skips everything on the second pass. -/
theorem c1_idempotence_witness :
    ((w1Tasks.map Prod.fst).Nodup ∧
     (∀ p ∈ w1Tasks, dueAlignedB p.2 = true) ∧
     ∀ p ∈ w1Tasks, titleRoundTrips p.2 = true) ∧
    ((runCycle w1Tasks (runCycle w1Tasks emptyStore).1).1 =
       (runCycle w1Tasks emptyStore).1 ∧
     (∀ d ∈ (runCycle w1Tasks (runCycle w1Tasks emptyStore).1).2,
        d = Decision.skip) ∧
     (runCycle w1Tasks (runCycle w1Tasks emptyStore).1).2.count
       Decision.create = 0 ∧
     (runCycle w1Tasks (runCycle w1Tasks emptyStore).1).2.count
       Decision.update = 0) :=
  ⟨⟨by decide, by decide, by decide⟩,
   c1_idempotence_amended w1Tasks emptyStore (by decide) (by decide)
     (by decide)⟩

/-- C1 counterexample: two refutations of the unconditional idempotence
claim. A task due at epoch-millisecond 1 is stored at whole-second
precision, so the second run immediately after a completed first run
issues an Update call; and a second-aligned all-day task titled `C:\new`
is written unescaped but reads back with the backslash-`n` unescaped to
a line break, so its second run also issues an Update call — in both
cases not zero, and not Skip. -/
theorem c1_idempotence_counterexample :
    (runCycle subSecondTasks (runCycle subSecondTasks emptyStore).1).2 =
      [Decision.update] ∧
    (runCycle subSecondTasks
        (runCycle subSecondTasks emptyStore).1).2.count Decision.update ≠ 0 ∧
    (runCycle escTitleTasks (runCycle escTitleTasks emptyStore).1).2 =
      [Decision.update] ∧
    (∀ p ∈ escTitleTasks, dueAlignedB p.2 = true) :=
  ⟨rfl, by decide, rfl, by decide⟩

/-- C8: resolving a text made of a `pf_` marker (containing no `__` and
not ending in `_`), the `__` separator and a JSON body produces the same
canonical task map as resolving the body alone — the strip removes
everything up to and including the first separator; a text starting with
the marker but containing no separator is parsed as-is; in particular the
`pf_4.4__`-prefixed entities payload resolves to the same canonical
structure as the raw body. -/
theorem c8_marker_strip (m B : List Char)
    (h1 : startsWithPf m = true)
    (h2 : sepSplit m = none)
    (h3 : m.getLast? ≠ some '_')
    (h4 : startsWithPf B = false) :
    resolveContent (m ++ '_' :: '_' :: B) = resolveContent B ∧
    (∀ cs : List Char, startsWithPf cs = true → sepSplit cs = none →
       stripMarker cs = cs) ∧
    resolveContent (String.data "pf_4.4__\x7b\"entities\":\x7b\x7d\x7d") =
      resolveContent (String.data "\x7b\"entities\":\x7b\x7d\x7d") ∧
    resolveContent (String.data "\x7b\"entities\":\x7b\x7d\x7d") =
      some (Json.obj [("task", Json.obj [("entities", Json.obj [])])]) := by
  refine ⟨?_, ?_, rfl, rfl⟩
  · have hpf := startsWithPf_append m ('_' :: '_' :: B) h1
    have hsep := sepSplit_append m B h2 h3
    have hstrip : stripMarker (m ++ '_' :: '_' :: B) = B := by
      simp [stripMarker, hpf, hsep]
    have hstrip2 : stripMarker B = B := by
      simp [stripMarker, h4]
    simp [resolveContent, hstrip, hstrip2]
  · intro cs hpf hsep
    simp [stripMarker, hpf, hsep]

/-- C8 witness: the `pf_4.4` marker with the entities body. -/
theorem c8_marker_strip_witness :
    (resolveContent (String.data "pf_4.4" ++ '_' :: '_' ::
        String.data "\x7b\"entities\":\x7b\x7d\x7d") =
      resolveContent (String.data "\x7b\"entities\":\x7b\x7d\x7d")) ∧
    (∀ cs : List Char, startsWithPf cs = true → sepSplit cs = none →
       stripMarker cs = cs) ∧
    resolveContent (String.data "pf_4.4__\x7b\"entities\":\x7b\x7d\x7d") =
      resolveContent (String.data "\x7b\"entities\":\x7b\x7d\x7d") ∧
    resolveContent (String.data "\x7b\"entities\":\x7b\x7d\x7d") =
      some (Json.obj [("task", Json.obj [("entities", Json.obj [])])]) :=
  c8_marker_strip (String.data "pf_4.4")
    (String.data "\x7b\"entities\":\x7b\x7d\x7d") rfl rfl (by decide) rfl

end SpSync
